import Mathlib

/-!
Verification of the protein-folding qubit-Hamiltonian construction pipeline of
the qiskit-nature repository: the contact-qubits builder
(`builders/contact_qubits_builder.py`), the symbolic distance calculator
(`distance_calculator.py`), the bead turn-indicator algebra
(`peptide/beads/main_bead.py`, `peptide/beads/side_bead.py`), the side-chain
constructor (`peptide/chains/side_chain.py`), the interaction providers
(`interactions/random_interaction.py`, `interactions/mixed_interaction.py`)
and the qubit-count reducer.

Operator convention.  Every operator produced by this pipeline is a weighted
sum of tensor products of single-qubit Identity/Pauli-Z factors (the turn
qubits are 1/2*(I - Z) projectors and all derived expressions stay in the
I/Z diagonal algebra).  A Z-string over n qubits is represented by a bit
mask: bit k set means a Z factor at qubit k, where qubit k is the tensor slot
n-1-k counted from the left of the printed tensor string (qiskit little-endian
order, qubit 0 rightmost).
-/

unseal Rat.add Rat.mul Rat.inv Rat.sub

/-- A symbolic diagonal Pauli-sum operator: a weighted sum of Z-strings over
`numQubits` qubits; each term is a rational coefficient with the bit mask of
its Z positions.  Models the opflow operator-algebra substrate consumed by the
pipeline (spec section 2 item 1 and section 6): terms are kept as a list, so
an un-reduced sum remembers its term order exactly as a SummedOp does. -/
structure ZOp where
  numQubits : ℕ
  terms : List (ℚ × ℕ)
deriving DecidableEq

namespace ZOp

/-- Operator addition (opflow op1 + op2): the term lists concatenate.  The
source algebra requires both operands to have the same register width and the
pipeline only ever adds equal-width operators; the width of the left operand
is kept. -/
def add (p q : ZOp) : ZOp := ⟨p.numQubits, p.terms ++ q.terms⟩

/-- Scalar multiplication (opflow c * op). -/
def smul (c : ℚ) (p : ZOp) : ZOp := ⟨p.numQubits, p.terms.map fun t => (c * t.1, t.2)⟩

/-- Operator negation. -/
def neg (p : ZOp) : ZOp := smul (-1) p

/-- Operator subtraction (opflow op1 - op2). -/
def sub (p q : ZOp) : ZOp := add p (neg q)

/-- Operator composition (opflow op1 @ op2): bilinear, and on diagonal
Z-strings Z_S @ Z_T = Z_(S symmDiff T) because Z squares to the identity;
masks therefore combine by bitwise xor. -/
def mul (p q : ZOp) : ZOp :=
  ⟨p.numQubits, p.terms.flatMap fun t => q.terms.map fun u => (t.1 * u.1, t.2 ^^^ u.2)⟩

/-- Tensor product (opflow op1 ^ op2): the left operand occupies the high
qubits, the right operand the low qubits. -/
def tensor (p q : ZOp) : ZOp :=
  ⟨p.numQubits + q.numQubits,
   p.terms.flatMap fun t => q.terms.map fun u => (t.1 * u.1, t.2 * 2 ^ q.numQubits + u.2)⟩

/-- Insert one term into a mask-sorted term list, merging coefficients of
equal masks. -/
def insertTerm (c : ℚ) (m : ℕ) : List (ℚ × ℕ) → List (ℚ × ℕ)
  | [] => [(c, m)]
  | t :: rest =>
    if m < t.2 then (c, m) :: t :: rest
    else if m = t.2 then (c + t.1, m) :: rest
    else t :: insertTerm c m rest

/-- Algebraic simplification (the opflow .reduce() call): merge like Pauli
strings and drop terms whose merged coefficient is zero.  The result is in a
canonical mask-sorted form, so two reduced diagonal operators are equal as
lists iff they are equal as algebra elements. -/
def reduce (p : ZOp) : ZOp :=
  ⟨p.numQubits,
   (p.terms.foldl (fun acc t => insertTerm t.1 t.2 acc) []).filter fun t => decide (t.1 ≠ 0)⟩

/-- The coefficient of the Z-string with mask `m` in a formal sum of terms. -/
def coeffOf (l : List (ℚ × ℕ)) (m : ℕ) : ℚ :=
  l.foldr (fun t acc => (if t.2 = m then t.1 else 0) + acc) 0

/-- The coefficient of the Z-string with mask `m` in the formal sum.  This is
the algebraic content of a symbolic Pauli sum: two diagonal Pauli sums are the
same algebra element iff their widths and coefficient functions agree. -/
def coeffFn (p : ZOp) (m : ℕ) : ℚ := coeffOf p.terms m

/-- Equality as algebra elements: same register width and the same coefficient
on every Z-string. -/
def aeq (p q : ZOp) : Prop :=
  p.numQubits = q.numQubits ∧ ∀ m, coeffFn p m = coeffFn q m

theorem coeffOf_nil (m : ℕ) : coeffOf [] m = 0 := rfl

theorem coeffOf_cons (t : ℚ × ℕ) (l : List (ℚ × ℕ)) (m : ℕ) :
    coeffOf (t :: l) m = (if t.2 = m then t.1 else 0) + coeffOf l m := rfl

theorem coeffOf_append (l1 l2 : List (ℚ × ℕ)) (m : ℕ) :
    coeffOf (l1 ++ l2) m = coeffOf l1 m + coeffOf l2 m := by
  induction l1 with
  | nil => simp [coeffOf]
  | cons t rest ih =>
    simp only [List.cons_append, coeffOf_cons, ih]
    ring

theorem coeffOf_insertTerm (c : ℚ) (m0 : ℕ) (l : List (ℚ × ℕ)) (m : ℕ) :
    coeffOf (insertTerm c m0 l) m = (if m0 = m then c else 0) + coeffOf l m := by
  induction l with
  | nil => simp [insertTerm, coeffOf]
  | cons t rest ih =>
    by_cases h1 : m0 < t.2
    · simp only [insertTerm, if_pos h1, coeffOf_cons]
    · by_cases h2 : m0 = t.2
      · subst h2
        rw [show insertTerm c t.2 (t :: rest) = (c + t.1, t.2) :: rest from by
              simp [insertTerm, lt_irrefl]]
        simp only [coeffOf_cons]
        by_cases h3 : t.2 = m
        · simp only [if_pos h3]
          ring
        · simp only [if_neg h3]
          ring
      · simp only [insertTerm, if_neg h1, if_neg h2, coeffOf_cons, ih]
        ring

theorem coeffOf_filter_ne_zero (l : List (ℚ × ℕ)) (m : ℕ) :
    coeffOf (l.filter fun t => decide (t.1 ≠ 0)) m = coeffOf l m := by
  induction l with
  | nil => simp [coeffOf]
  | cons t rest ih =>
    by_cases h : t.1 = 0
    · simp only [List.filter_cons, h, coeffOf_cons]
      simpa [h] using ih
    · simp only [List.filter_cons, coeffOf_cons]
      rw [if_pos (by simpa using h)]
      simp only [coeffOf_cons, ih]

theorem coeffOf_insert_fold (l acc : List (ℚ × ℕ)) (m : ℕ) :
    coeffOf (l.foldl (fun acc t => insertTerm t.1 t.2 acc) acc) m
      = coeffOf acc m + coeffOf l m := by
  induction l generalizing acc with
  | nil => simp [coeffOf]
  | cons t rest ih =>
    simp only [List.foldl_cons]
    rw [ih (insertTerm t.1 t.2 acc), coeffOf_insertTerm t.1 t.2 acc, coeffOf_cons]
    ring

/-- Reduction preserves the algebraic content of a symbolic Pauli sum. -/
theorem coeffFn_reduce (p : ZOp) (m : ℕ) : coeffFn (reduce p) m = coeffFn p m := by
  unfold reduce coeffFn
  rw [show (⟨p.numQubits,
        (p.terms.foldl (fun acc t => insertTerm t.1 t.2 acc) []).filter
          fun t => decide (t.1 ≠ 0)⟩ : ZOp).terms
      = (p.terms.foldl (fun acc t => insertTerm t.1 t.2 acc) []).filter
          (fun t => decide (t.1 ≠ 0)) from rfl]
  rw [coeffOf_filter_ne_zero, coeffOf_insert_fold, coeffOf_nil]
  ring

theorem numQubits_reduce (p : ZOp) : (reduce p).numQubits = p.numQubits := rfl

end ZOp

/-- Modelled from the spec: pauli_ops_builder.py is not under src/.  The
operator-algebra substrate must supply "an identity element constructible for
any qubit count" (spec section 6); _build_full_identity(n) is the n-qubit
identity operator. -/
def _build_full_identity (n : ℕ) : ZOp := ⟨n, [(1, 0)]⟩

/-- Modelled from the spec: pauli_ops_builder.py is not under src/.  The
substrate supplies "tensor-product composition of single-qubit Pauli symbols"
(spec section 6); _build_pauli_z_op(n, indices) is the n-qubit Z-string with a
Z factor at each listed qubit index and identity elsewhere (the index-to-slot
convention is fixed by the repository's own test expectations, e.g.
test_create_pauli_for_contacts_2: index k is qubit k, i.e. tensor slot
n-1-k from the left). -/
def _build_pauli_z_op (n : ℕ) (indices : List ℕ) : ZOp :=
  ⟨n, [(1, (indices.map fun k => 2 ^ k).sum)]⟩

/-- Modelled from the spec: the chain constructors (main_chain.py,
base_chain.py) are not under src/.  Spec section 4.1: Peptide construction
"deterministically allocates one pair of fresh turn qubits per main bead"
(and one per side bead); each turn operator is a two-level selector on its
own fresh qubit, the projector 0.5*(I - Z) at that qubit of the shared
conformation register — exactly the operator form asserted by the in-repo
tests (test_create_new_qubit_list, test_bead_side). -/
def _build_turn_qubit (n : ℕ) (k : ℕ) : ZOp :=
  ZOp.sub (ZOp.smul (1/2) (_build_full_identity n)) (ZOp.smul (1/2) (_build_pauli_z_op n [k]))

namespace MainBead

/-- main_bead.py: indicator 0 is (full_id ^ ((full_id - t0) @ (full_id - t1))).reduce(). -/
def _build_turn_indicator_fun_0 (full_id t0 t1 : ZOp) : ZOp :=
  ZOp.reduce (ZOp.tensor full_id (ZOp.mul (ZOp.sub full_id t0) (ZOp.sub full_id t1)))

/-- main_bead.py: indicator 1 is (full_id ^ (t1 @ (t1 - t0))).reduce(). -/
def _build_turn_indicator_fun_1 (full_id t0 t1 : ZOp) : ZOp :=
  ZOp.reduce (ZOp.tensor full_id (ZOp.mul t1 (ZOp.sub t1 t0)))

/-- main_bead.py: indicator 2 is (full_id ^ (t0 @ (t0 - t1))).reduce(). -/
def _build_turn_indicator_fun_2 (full_id t0 t1 : ZOp) : ZOp :=
  ZOp.reduce (ZOp.tensor full_id (ZOp.mul t0 (ZOp.sub t0 t1)))

/-- main_bead.py: indicator 3 is (full_id ^ (t0 @ t1)).reduce(). -/
def _build_turn_indicator_fun_3 (full_id t0 t1 : ZOp) : ZOp :=
  ZOp.reduce (ZOp.tensor full_id (ZOp.mul t0 t1))

end MainBead

namespace SideBead

/-- side_bead.py: indicator 0 is (((full_id - t0) @ (full_id - t1)) ^ full_id).reduce()
— the identity factor is on the opposite side of the tensor product. -/
def _build_turn_indicator_fun_0 (full_id t0 t1 : ZOp) : ZOp :=
  ZOp.reduce (ZOp.tensor (ZOp.mul (ZOp.sub full_id t0) (ZOp.sub full_id t1)) full_id)

/-- side_bead.py: indicator 1 is ((t1 @ (t1 - t0)) ^ full_id).reduce(). -/
def _build_turn_indicator_fun_1 (full_id t0 t1 : ZOp) : ZOp :=
  ZOp.reduce (ZOp.tensor (ZOp.mul t1 (ZOp.sub t1 t0)) full_id)

/-- side_bead.py: indicator 2 is ((t0 @ (t0 - t1)) ^ full_id).reduce(). -/
def _build_turn_indicator_fun_2 (full_id t0 t1 : ZOp) : ZOp :=
  ZOp.reduce (ZOp.tensor (ZOp.mul t0 (ZOp.sub t0 t1)) full_id)

/-- side_bead.py: indicator 3 is ((t0 @ t1) ^ full_id).reduce(). -/
def _build_turn_indicator_fun_3 (full_id t0 t1 : ZOp) : ZOp :=
  ZOp.reduce (ZOp.tensor (ZOp.mul t0 t1) full_id)

end SideBead

/-- The peptide model (peptide.py and its chains) as consumed by the distance
and contact builders: the main-chain length, the one-hot side-chain presence
vector (get_side_chain_hot_vector) and, for every bead, the pair of register
indices of its two turn qubits (beads are 1-based as in the source; the
constructed form of the turn qubits themselves is _build_turn_qubit). -/
structure Peptide where
  mainChainLen : ℕ
  sideChainHot : List Bool
  turnWidth : ℕ
  mainTurnIdx : ℕ → ℕ × ℕ
  sideTurnIdx : ℕ → ℕ × ℕ

namespace Peptide

/-- Bead k's side-chain presence: side_chain[k - 1] of the hot vector. -/
def hasSideChain (p : Peptide) (k : ℕ) : Bool := p.sideChainHot.getD (k - 1) false

/-- The four turn-indicator operators of main-chain bead k
(MainBead.get_indicator_functions), selected by axis a = 0,1,2,3; computed by
the main_bead.py formulas from the bead's own turn-qubit pair, with
full_id = _build_full_identity(turn_qubits[0].num_qubits) as in the bead
base class. -/
def mainIndicator (p : Peptide) (a k : ℕ) : ZOp :=
  let t0 := _build_turn_qubit p.turnWidth (p.mainTurnIdx k).1
  let t1 := _build_turn_qubit p.turnWidth (p.mainTurnIdx k).2
  let full_id := _build_full_identity p.turnWidth
  if a = 0 then MainBead._build_turn_indicator_fun_0 full_id t0 t1
  else if a = 1 then MainBead._build_turn_indicator_fun_1 full_id t0 t1
  else if a = 2 then MainBead._build_turn_indicator_fun_2 full_id t0 t1
  else MainBead._build_turn_indicator_fun_3 full_id t0 t1

/-- The four turn-indicator operators of the side bead attached to main-chain
bead k (SideBead.get_indicator_functions), selected by axis a. -/
def sideIndicator (p : Peptide) (a k : ℕ) : ZOp :=
  let t0 := _build_turn_qubit p.turnWidth (p.sideTurnIdx k).1
  let t1 := _build_turn_qubit p.turnWidth (p.sideTurnIdx k).2
  let full_id := _build_full_identity p.turnWidth
  if a = 0 then SideBead._build_turn_indicator_fun_0 full_id t0 t1
  else if a = 1 then SideBead._build_turn_indicator_fun_1 full_id t0 t1
  else if a = 2 then SideBead._build_turn_indicator_fun_2 full_id t0 t1
  else SideBead._build_turn_indicator_fun_3 full_id t0 t1

/-- Modelled from the spec (section 4.1): Peptide construction allocates one
pair of fresh turn qubits per main bead — bead k (1-based) gets qubits
2*(k-1) and 2*(k-1)+1 of the 2*(main_chain_len-1)-qubit conformation
register — and, where a side chain of length 1 is requested, one pair per
side bead at the same indices of the side half (side-bead operators are
placed in the high half of the full register by the side_bead.py tensor
convention).  This is the layout asserted by the in-repo tests
(test_create_new_qubit_list) and by contact_map.py. -/
def build (mainChainLen : ℕ) (sideChainLens : List ℕ) : Peptide :=
  ⟨mainChainLen, sideChainLens.map fun l => decide (l = 1),
   2 * (mainChainLen - 1),
   fun k => (2 * (k - 1), 2 * (k - 1) + 1),
   fun k => (2 * (k - 1), 2 * (k - 1) + 1)⟩

end Peptide

/-- One contact operator of the contact builder:
(_build_full_identity(2*num_qubits) - _build_pauli_z_op(2*num_qubits,
[q1, q2])) / 2.0 . -/
def contactOp (numQubits q1 q2 : ℕ) : ZOp :=
  ZOp.smul (1/2)
    (ZOp.sub (_build_full_identity (2 * numQubits)) (_build_pauli_z_op (2 * numQubits) [q1, q2]))

/-- contact_qubits_builder._create_pauli_for_contacts, per-(i,j) body: the
dictionary assignments performed for the main-chain pair (i, j), in program
order; keys are (i, p, j, s) with p the side flag of bead i and s the side
flag of bead j, exactly the pauli_contacts[i][p][j][s] nesting of the
source. -/
def contactEntriesAt (sc : ℕ → Bool) (numQubits i j : ℕ) :
    List ((ℕ × ℕ × ℕ × ℕ) × ZOp) :=
  if (j - i) % 2 = 1 then
    (if 5 ≤ j - i then [((i, 0, j, 0), contactOp numQubits (i - 1) (j - 1))] else [])
      ++ (if sc i ∧ sc j then
            [((i, 1, j, 1), contactOp numQubits (numQubits + i - 1) (numQubits + j - 1))]
          else [])
  else
    if 4 ≤ j - i then
      (if sc j then [((i, 0, j, 1), contactOp numQubits (i - 1) (numQubits + j - 1))] else [])
        ++ (if sc i then [((i, 1, j, 0), contactOp numQubits (j - 1) (numQubits + i - 1))]
            else [])
    else []

/-- The r_contact increments performed for the pair (i, j): the source pairs
every dictionary assignment with r_contact += 1, following the same branch
structure. -/
def contactCountAt (sc : ℕ → Bool) (i j : ℕ) : ℕ :=
  if (j - i) % 2 = 1 then
    (if 5 ≤ j - i then 1 else 0) + (if sc i ∧ sc j then 1 else 0)
  else
    if 4 ≤ j - i then (if sc j then 1 else 0) + (if sc i then 1 else 0) else 0

/-- contact_qubits_builder._create_pauli_for_contacts: enumerates i over
range(1, main_chain_len - 3) and j over range(i + 3, main_chain_len + 1),
collects the contact operators keyed (i, p, j, s) and the final r_contact
counter; num_qubits = main_chain_len - 1 and every contact operator lives on
2 * num_qubits qubits. -/
def _create_pauli_for_contacts (p : Peptide) : List ((ℕ × ℕ × ℕ × ℕ) × ZOp) × ℕ :=
  ((List.range' 1 (p.mainChainLen - 4)).flatMap fun i =>
      (List.range' (i + 3) (p.mainChainLen - i - 2)).flatMap fun j =>
        contactEntriesAt p.hasSideChain (p.mainChainLen - 1) i j,
   ((List.range' 1 (p.mainChainLen - 4)).map fun i =>
       ((List.range' (i + 3) (p.mainChainLen - i - 2)).map fun j =>
          contactCountAt p.hasSideChain i j).sum).sum)

/-- Lookup of pauli_contacts[i][p][j][s] in the collected contact entries. -/
def contactLookup (entries : List ((ℕ × ℕ × ℕ × ℕ) × ZOp))
    (key : ℕ × ℕ × ℕ × ℕ) : Option ZOp :=
  (entries.find? fun e => decide (e.1 = key)).map fun e => e.2

/-- C1 counterexample: for the peptide with main chain "SAASSS" (length 6)
and side chains present exactly at main-chain positions 3 and 4 (the
configuration the claim states), the contact builder creates exactly one
contact — the main-main pair (1,6) — so r_contact is 1, not 2, and no (1,5)
entry exists in any category; the claim as stated is false on the source. -/
theorem contacts_SAASSS_34_claim_false :
    ¬ ((_create_pauli_for_contacts (Peptide.build 6 [0, 0, 1, 1, 0, 0])).2 = 2
        ∧ contactLookup (_create_pauli_for_contacts (Peptide.build 6 [0, 0, 1, 1, 0, 0])).1
            (1, 1, 5, 0) ≠ none) := by decide

/-- C1 (amended): for the peptide with main chain "SAASSS" (length 6) and
side chains present at main-chain positions 3, 4 and 5 — the configuration of
the in-repo test test_create_pauli_for_contacts_2 — the contact builder
returns r_contact = 2; the only main-main entry is at (1,6) and equals 0.5
times the 10-qubit identity minus 0.5 times the Z-string with Z at qubit
indices 0 and 5 (the register has 2*(main_chain_len-1) = 10 qubits; mask
2^0 + 2^5 = 33); and the (1,5) entry is a main-side contact, key (1,0,5,1),
with Z at qubit indices 0 and 9 (mask 513).  The full builder output is
stated, so no other entry exists. -/
theorem contacts_SAASSS_345 :
    _create_pauli_for_contacts (Peptide.build 6 [0, 0, 1, 1, 1, 0])
      = ([((1, 0, 5, 1), ⟨10, [(1/2, 0), (-1/2, 513)]⟩),
          ((1, 0, 6, 0), ⟨10, [(1/2, 0), (-1/2, 33)]⟩)], 2) := by decide

/-- Modelled from the spec: qubit_fixing.py is not under src/.  Spec section
4.4 designates an always-fixed portion of the conformation register, and the
concrete section-8 scenarios pin the fixed assignment down: conformation
qubits 0, 2 and 3 are fixed to the +1 Z-eigenvalue and qubits 1 and 5 to the
-1 eigenvalue (this assignment reproduces the section-8 first-neighbor
expected operator as well as the in-repo test_second_neighbor and
test_create_pauli_for_contacts expectations).  _fix_qubits substitutes the
eigenvalues for the Z factors at the fixed positions: each term's mask is
cleared at bits {0,1,2,3,5} (bit sum 47) and its coefficient is negated once
for each set bit among {1,5}. -/
def _fix_qubits (op : ZOp) : ZOp :=
  ⟨op.numQubits, op.terms.map fun t =>
    ((if t.2.testBit 1 then -t.1 else t.1) * (if t.2.testBit 5 then -1 else 1),
     t.2 - (t.2 &&& 47))⟩

/-- distance_calculator._calc_distances_main_chain, the inner accumulation for
the pair (i, j) at axis a: starting from the int 0 (an empty sum, absorbed by
the first +=), accumulate (-1)^k * indic_a(k) over k in range(i, j). -/
def deltaAcc (p : Peptide) (a i j : ℕ) : ZOp :=
  (List.range' i (j - i)).foldl
    (fun acc k => ZOp.add acc (ZOp.smul ((-1) ^ k) (p.mainIndicator a k)))
    ⟨p.turnWidth + p.turnWidth, []⟩

/-- distance_calculator._calc_distances_main_chain: the main-chain
displacement table; the entry at (axis a, i, 0, j, 0) exists for every
1 <= i < j <= main_chain_len (the loops i in range(1, N), j in
range(i+1, N+1)) and holds _fix_qubits(accumulated sum).reduce() — one
_fix_qubits + reduce per (i, j, axis), applied after the k-loop finishes. -/
def _calc_distances_main_chain (p : Peptide) (a i j : ℕ) : Option ZOp :=
  if 1 ≤ i ∧ i < j ∧ j ≤ p.mainChainLen then
    some (ZOp.reduce (_fix_qubits (deltaAcc p a i j)))
  else none

/-- distance_calculator._add_distances_side_chain layered over the main-chain
pass: the complete displacement table delta_na viewed at (axis a, i, p, j, s)
with p the side flag of bead i and s the side flag of bead j (the source
stores delta_n[i][p][j][s]; its pass adds (i,0,j,1) when bead j has a side
chain, (i,1,j,0) when bead i has one, and (i,1,j,1) when both do, each from
the main-chain entry delta_n[i][0][j][0] with the side-bead indicator signed
+(-1)^j for the upper bead and -(-1)^i for the lower bead).  A combination
never assigned (KeyError in the source) is key absence. -/
def deltaTable (p : Peptide) (a i pf j sf : ℕ) : Option ZOp :=
  if pf = 0 ∧ sf = 0 then _calc_distances_main_chain p a i j
  else if pf = 0 ∧ sf = 1 then
    if p.hasSideChain j then
      (_calc_distances_main_chain p a i j).map fun d =>
        ZOp.reduce (_fix_qubits (ZOp.add d (ZOp.smul ((-1) ^ j) (p.sideIndicator a j))))
    else none
  else if pf = 1 ∧ sf = 0 then
    if p.hasSideChain i then
      (_calc_distances_main_chain p a i j).map fun d =>
        ZOp.reduce (_fix_qubits (ZOp.sub d (ZOp.smul ((-1) ^ i) (p.sideIndicator a i))))
    else none
  else if pf = 1 ∧ sf = 1 then
    if p.hasSideChain i ∧ p.hasSideChain j then
      (_calc_distances_main_chain p a i j).map fun d =>
        ZOp.reduce (_fix_qubits (ZOp.sub
          (ZOp.add d (ZOp.smul ((-1) ^ j) (p.sideIndicator a j)))
          (ZOp.smul ((-1) ^ i) (p.sideIndicator a i))))
    else none
  else none

/-- distance_calculator._calc_total_distances: x_dist[i][p][j][s] =
_fix_qubits(delta_n0**2 + delta_n1**2 + delta_n2**2 + delta_n3**2).reduce()
over the loops i in range(1, N), j in range(i+1, N+1), s, p in range(2),
skipping the chain-terminal exclusions (i == 1 and p == 1, or
j == main_chain_len and s == 1, the source's continue) and every combination
for which an axis entry is missing (the caught KeyError): those keys are
simply absent, not zero. -/
def _calc_total_distances (p : Peptide) (i pf j sf : ℕ) : Option ZOp :=
  if 1 ≤ i ∧ i < j ∧ j ≤ p.mainChainLen then
    if (i = 1 ∧ pf = 1) ∨ (j = p.mainChainLen ∧ sf = 1) then none
    else
      match deltaTable p 0 i pf j sf, deltaTable p 1 i pf j sf,
            deltaTable p 2 i pf j sf, deltaTable p 3 i pf j sf with
      | some d0, some d1, some d2, some d3 =>
        some (ZOp.reduce (_fix_qubits
          (ZOp.add (ZOp.add (ZOp.add (ZOp.mul d0 d0) (ZOp.mul d1 d1))
            (ZOp.mul d2 d2)) (ZOp.mul d3 d3))))
      | _, _, _, _ => none
  else none

/-- contact_qubits_builder._first_neighbor: lambda_0 = 7 * (j - i + 1) *
lambda_1; reads e = pair_energies[i, p, j, s] (computed but never used — the
pending-work comment in the source) and x = x_dist[i][p][j][s]; returns
(lambda_0 * (x - _build_full_identity(x.num_qubits))).reduce().  A missing
x_dist key (a KeyError in the source) is a none result. -/
def _first_neighbor (i pf j sf : ℕ) (lambda_1 : ℚ)
    (pair_energies : ℕ → ℕ → ℕ → ℕ → ℚ)
    (x_dist : ℕ → ℕ → ℕ → ℕ → Option ZOp) : Option ZOp :=
  let lambda_0 : ℚ := 7 * ((j : ℚ) - (i : ℚ) + 1) * lambda_1
  let _e := pair_energies i pf j sf
  (x_dist i pf j sf).map fun x =>
    ZOp.reduce (ZOp.smul lambda_0 (ZOp.sub x (_build_full_identity x.numQubits)))

/-- Validation of the modelled _fix_qubits and turn-qubit layout against the
spec section-8 distance scenario: on the 6-bead chain the squared-distance
operator x_dist[1][0][4][0] is 4*I + Z at qubit 4 of the 20-qubit register
(tensor slot 15 from the left). -/
theorem modelValidation_xdist :
    _calc_total_distances (Peptide.build 6 [0, 0, 1, 1, 1, 0]) 1 0 4 0
      = some ⟨20, [(4, 0), (1, 16)]⟩ := by decide

/-- contact_qubits_builder._second_neighbor: reads
e = pair_energies[i, p, j, s] (computed but never used) and
x = x_dist[i][p][j][s]; returns
(lambda_1 * (2 * _build_full_identity(x.num_qubits) - x)).reduce(). -/
def _second_neighbor (i pf j sf : ℕ) (lambda_1 : ℚ)
    (pair_energies : ℕ → ℕ → ℕ → ℕ → ℚ)
    (x_dist : ℕ → ℕ → ℕ → ℕ → Option ZOp) : Option ZOp :=
  let _e := pair_energies i pf j sf
  (x_dist i pf j sf).map fun x =>
    ZOp.reduce (ZOp.smul lambda_1
      (ZOp.sub (ZOp.smul 2 (_build_full_identity x.numQubits)) x))

/-- Validation of the modelled _fix_qubits against the in-repo
test_second_neighbor (chain "SAASS", side chain at position 3, lambda_1 = 2,
pair (1,0,4,0)): the expected operator is -4.0*I_16 - 2.0*(Z at qubit 4). -/
theorem modelValidation_second_neighbor :
    _second_neighbor 1 0 4 0 2 (fun _ _ _ _ => 0)
        (_calc_total_distances (Peptide.build 5 [0, 0, 1, 0, 0]))
      = some ⟨16, [(-4, 0), (-2, 16)]⟩ := by decide

/-- Python-level errors surfaced by the embedded operations. -/
inductive PyErr where
  | exception (msg : String)
  | typeError (msg : String)
  | valueError (msg : String)
  | indexError (msg : String)
deriving DecidableEq

/-- Modelled from the spec: interaction.py (the Interaction base class) is
not under src/.  Spec section 4.3: the "recognized single-letter codes" are
the twenty standard amino-acid letters. -/
def validResidues : List Char :=
  ['A', 'C', 'D', 'E', 'F', 'G', 'H', 'I', 'K', 'L',
   'M', 'N', 'P', 'Q', 'R', 'S', 'T', 'V', 'W', 'Y']

/-- Modelled from the spec: Interaction._validate_residue (interaction.py is
not under src/).  Spec section 4.3: providers "must validate that the residue
sequence contains only recognized single-letter codes before indexing the
table, failing with a domain error otherwise". -/
def _validate_residue (sequence : List Char) : Except PyErr Unit :=
  if sequence.all fun c => validResidues.contains c then Except.ok ()
  else Except.error (PyErr.valueError "residue sequence contains an unrecognized code")

/-- random_interaction.py RandomInteraction.calc_energy_matrix:
pair_energies = -1 - 4 * np.random.rand(num_beads + 1, 2, num_beads + 1, 2).
The numbers drawn from the process-wide random source are supplied as the
function rand (np.random.rand yields floats in [0, 1)).  The sequence
argument is unused (the source marks the parameter "TODO unused arg"), no
validation of any kind is performed, and the body cannot raise, so the result
is always ok. -/
def RandomInteraction.calc_energy_matrix (num_beads : ℕ) (sequence : List Char)
    (rand : ℕ → ℕ → ℕ → ℕ → ℚ) : Except PyErr (ℕ → ℕ → ℕ → ℕ → ℚ) :=
  Except.ok fun i pf j sf => -1 - 4 * rand i pf j sf

/-- mixed_interaction.py MixedInteraction.calc_energy_matrix: validates the
residue sequence first (Interaction._validate_residue), then loads the
literature table (energy_matrix_loader.py is not under src/, so the loaded
(mj, list_aa) pair is passed in) and fills
pair_energies[i, 0, j, 0] = mj[min(aa_i, aa_j), max(aa_i, aa_j)] for
i in range(1, num_beads + 1) and j in range(i + 1, num_beads + 1), with the
caller-supplied additional_energies overrides applied afterwards (the last
matching override wins); every other entry keeps the numpy zero.  The dense
array is represented as the function from indices to values. -/
def MixedInteraction.calc_energy_matrix
    (mj : ℕ → ℕ → ℚ) (list_aa : List Char)
    (additional_energies : Option (List ((ℕ × ℕ) × (ℕ × ℕ) × ℚ)))
    (num_beads : ℕ) (sequence : List Char) :
    Except PyErr (ℕ → ℕ → ℕ → ℕ → ℚ) :=
  match _validate_residue sequence with
  | Except.error e => Except.error e
  | Except.ok _ =>
    Except.ok fun i pf j sf =>
      let base : ℚ :=
        if 1 ≤ i ∧ i < j ∧ j ≤ num_beads ∧ pf = 0 ∧ sf = 0 then
          let aa_i := list_aa.indexOf (sequence.getD (i - 1) ' ')
          let aa_j := list_aa.indexOf (sequence.getD (j - 1) ' ')
          mj (min aa_i aa_j) (max aa_i aa_j)
        else 0
      match additional_energies with
      | none => base
      | some ovs =>
        if 1 ≤ num_beads then
          ovs.foldl (fun acc ov =>
            if ov.1 = (i, pf) ∧ ov.2.1 = (j, sf) then ov.2.2 else acc) base
        else base

/-- Modelled from the spec: the literature-table provider
(MiyazawaJerniganInteraction, the third interchangeable strategy of spec
section 4.3) is not under src/.  It is "a deterministic literature-table
lookup keyed by amino-acid pair identity" and, like the others, "must
validate that the residue sequence contains only recognized single-letter
codes before indexing the table, failing with a domain error otherwise". -/
def MiyazawaJerniganInteraction.calc_energy_matrix
    (mj : ℕ → ℕ → ℚ) (list_aa : List Char) (num_beads : ℕ) (sequence : List Char) :
    Except PyErr (ℕ → ℕ → ℕ → ℕ → ℚ) :=
  match _validate_residue sequence with
  | Except.error e => Except.error e
  | Except.ok _ =>
    Except.ok fun i pf j sf =>
      if 1 ≤ i ∧ i < j ∧ j ≤ num_beads ∧ pf = 0 ∧ sf = 0 then
        let aa_i := list_aa.indexOf (sequence.getD (i - 1) ' ')
        let aa_j := list_aa.indexOf (sequence.getD (j - 1) ' ')
        mj (min aa_i aa_j) (max aa_i aa_j)
      else 0

/-- A side bead as declared by side_bead.py SideBead.__init__(self,
main_index, side_index, residue_type, turn_qubits). -/
structure SideBead where
  main_index : ℕ
  side_index : ℕ
  residue_type : Option Char
  turn_qubits : ZOp × ZOp
deriving DecidableEq

/-- side_chain.py SideChain._build_side_chain: raises a configuration error
for side_chain_len > 1; returns None for side_chain_len == 0; for length 1 it
builds the two turn qubits, evaluates
side_chain_residue_sequences[side_bead_id] (an IndexError if the list is
empty) and then calls
SideBead(side_chain_residue_sequences[side_bead_id], [q1, q2]) — but
side_bead.py declares SideBead.__init__(self, main_index, side_index,
residue_type, turn_qubits), so the call supplies 2 positional arguments where
4 are required and Python raises TypeError before any side bead is created
(the in-repo test test_bead_side constructs SideBead with all four arguments,
confirming the four-argument signature). -/
def SideChain._build_side_chain (side_chain_len : ℕ)
    (side_chain_residue_sequences : List (Option Char)) :
    Except PyErr (Option (List SideBead)) :=
  if 1 < side_chain_len then
    Except.error (PyErr.exception
      "Only side chains of length 1 supported, a longer length was given.")
  else if side_chain_len = 0 then Except.ok none
  else
    match side_chain_residue_sequences.get? 0 with
    | none => Except.error (PyErr.indexError "list index out of range")
    | some _ =>
      Except.error (PyErr.typeError
        "SideBead.__init__ missing 2 required positional arguments")

/-- Modelled from the spec: a single-qubit Pauli symbol of the weighted
Pauli-sum operators handled by the qubit-count reducer (spec section 2
item 1: "each a coefficient times a string of single-qubit Pauli symbols
(Identity/X/Y/Z)"). -/
inductive PauliFactor where
  | id
  | x
  | y
  | z
deriving DecidableEq

/-- Modelled from the spec: qubit_number_reducer._find_unused_qubits
(qubit_number_reducer.py is not under src/).  Spec section 4.5: "determine
the subset of qubit positions at which every term's Pauli factor is Identity
(i.e., positions that never influence the operator's action)".  A term is a
coefficient with its factor string in printed (left-to-right) order; position
q is the qubit index, i.e. slot n-1-q from the left; the positions are
returned in ascending order, matching the in-repo test expectations. -/
def _find_unused_qubits (op : List (ℚ × List PauliFactor)) : List ℕ :=
  match op with
  | [] => []
  | t0 :: _ =>
    let n := t0.2.length
    (List.range n).filter fun q =>
      op.all fun t => decide (t.2.getD (n - 1 - q) PauliFactor.id = PauliFactor.id)

/-- Modelled from the spec: qubit_number_reducer._remove_unused_qubits
(qubit_number_reducer.py is not under src/).  Spec section 4.5: "return a new
equivalent operator over the remaining positions only, with term order and
relative coefficients preserved, and the dropped positions removed
consistently from every term"; handles a single term and a multi-term sum
uniformly. -/
def _remove_unused_qubits (op : List (ℚ × List PauliFactor)) :
    List (ℚ × List PauliFactor) :=
  match op with
  | [] => []
  | t0 :: _ =>
    let n := t0.2.length
    let unused := _find_unused_qubits op
    let keptSlots := (List.range n).filter fun s => decide ((n - 1 - s) ∉ unused)
    op.map fun t => (t.1, keptSlots.map fun s => t.2.getD s PauliFactor.id)

/-- Validation of the modelled reducer against the in-repo
test_find_unused_qubits: (I^I^I) + (Z^I^Z) has exactly qubit 1 unused. -/
theorem modelValidation_find_unused :
    _find_unused_qubits
        [(1, [PauliFactor.id, PauliFactor.id, PauliFactor.id]),
         (1, [PauliFactor.z, PauliFactor.id, PauliFactor.z])] = [1] := by decide

/-- Validation of the modelled reducer against the in-repo
test_remove_unused_qubits: (I^I^I^I^I) + (Z^I^I^I^I) + (I^I^I^I^Z) reduces
to 1.0*(I^I) + 1.0*(Z^I) + 1.0*(I^Z). -/
theorem modelValidation_remove_unused :
    _remove_unused_qubits
        [(1, [PauliFactor.id, PauliFactor.id, PauliFactor.id, PauliFactor.id, PauliFactor.id]),
         (1, [PauliFactor.z, PauliFactor.id, PauliFactor.id, PauliFactor.id, PauliFactor.id]),
         (1, [PauliFactor.id, PauliFactor.id, PauliFactor.id, PauliFactor.id, PauliFactor.z])]
      = [(1, [PauliFactor.id, PauliFactor.id]),
         (1, [PauliFactor.z, PauliFactor.id]),
         (1, [PauliFactor.id, PauliFactor.z])] := by decide

theorem keys_contactEntriesAt (sc : ℕ → Bool) (nq i j : ℕ) (k : ℕ × ℕ × ℕ × ℕ) :
    k ∈ (contactEntriesAt sc nq i j).map Prod.fst ↔
      ((k = (i, 0, j, 0) ∧ (j - i) % 2 = 1 ∧ 5 ≤ j - i)
       ∨ (k = (i, 1, j, 1) ∧ (j - i) % 2 = 1 ∧ sc i = true ∧ sc j = true)
       ∨ (k = (i, 0, j, 1) ∧ (j - i) % 2 = 0 ∧ 4 ≤ j - i ∧ sc j = true)
       ∨ (k = (i, 1, j, 0) ∧ (j - i) % 2 = 0 ∧ 4 ≤ j - i ∧ sc i = true)) := by
  unfold contactEntriesAt
  by_cases hp : (j - i) % 2 = 1
  · have hp0 : ¬ ((j - i) % 2 = 0) := by omega
    simp only [if_pos hp]
    by_cases h5 : 5 ≤ j - i <;> by_cases hsc : sc i ∧ sc j <;>
      simp_all [List.mem_append] <;> tauto
  · have hp0 : (j - i) % 2 = 0 := by omega
    simp only [if_neg hp]
    by_cases h4 : 4 ≤ j - i
    · by_cases hsi : sc i = true <;> by_cases hsj : sc j = true <;>
        simp_all [List.mem_append] <;> tauto
    · simp only [if_neg h4, List.map_nil, List.not_mem_nil, false_iff]
      rintro (⟨_, h, _⟩ | ⟨_, h, _⟩ | ⟨_, _, h, _⟩ | ⟨_, _, h, _⟩) <;> omega

theorem contactCountAt_eq_length (sc : ℕ → Bool) (nq i j : ℕ) :
    contactCountAt sc i j = (contactEntriesAt sc nq i j).length := by
  unfold contactCountAt contactEntriesAt
  by_cases hp : (j - i) % 2 = 1
  · simp only [if_pos hp, List.length_append]
    by_cases h5 : 5 ≤ j - i <;> by_cases hsc : sc i = true ∧ sc j = true <;>
      simp [h5, hsc]
  · simp only [if_neg hp]
    by_cases h4 : 4 ≤ j - i
    · simp only [if_pos h4, List.length_append]
      by_cases hsi : sc i = true <;> by_cases hsj : sc j = true <;> simp [hsi, hsj]
    · simp [h4]

theorem r_contact_eq_length (p : Peptide) :
    (_create_pauli_for_contacts p).2 = (_create_pauli_for_contacts p).1.length := by
  unfold _create_pauli_for_contacts
  rw [List.length_flatMap]
  apply congrArg List.sum
  apply List.map_congr_left
  intro i _
  simp only [Function.comp_apply, List.length_flatMap]
  apply congrArg List.sum
  apply List.map_congr_left
  intro j _
  simp only [Function.comp_apply]
  exact contactCountAt_eq_length p.hasSideChain (p.mainChainLen - 1) i j

/-- C2: for every Peptide, the contact builder enumerates exactly the
main-chain pairs (i, j) with i in [1, main_chain_len-3) and j in
[i+3, main_chain_len]; it creates a main-main contact (key (i,0,j,0))
exactly when j-i is odd and j-i >= 5; a side-side contact (key (i,1,j,1))
exactly when j-i is odd and beads i and j both have a side chain; a
main-side contact (key (i,0,j,1)) exactly when j-i is even, j-i >= 4 and
bead j has a side chain; a side-main contact (key (i,1,j,0)) exactly when
j-i is even, j-i >= 4 and bead i has a side chain; and the returned
r_contact equals the number of contact operators so created. -/
theorem contact_builder_enumerates (p : Peptide) (i pf j sf : ℕ) :
    ((i, pf, j, sf) ∈ (_create_pauli_for_contacts p).1.map Prod.fst ↔
      1 ≤ i ∧ i < p.mainChainLen - 3 ∧ i + 3 ≤ j ∧ j ≤ p.mainChainLen ∧
        ((pf = 0 ∧ sf = 0 ∧ (j - i) % 2 = 1 ∧ 5 ≤ j - i) ∨
         (pf = 1 ∧ sf = 1 ∧ (j - i) % 2 = 1 ∧ p.hasSideChain i = true ∧
            p.hasSideChain j = true) ∨
         (pf = 0 ∧ sf = 1 ∧ (j - i) % 2 = 0 ∧ 4 ≤ j - i ∧ p.hasSideChain j = true) ∨
         (pf = 1 ∧ sf = 0 ∧ (j - i) % 2 = 0 ∧ 4 ≤ j - i ∧ p.hasSideChain i = true)))
    ∧ (_create_pauli_for_contacts p).2 = (_create_pauli_for_contacts p).1.length := by
  refine ⟨?_, r_contact_eq_length p⟩
  unfold _create_pauli_for_contacts
  rw [show ((List.range' 1 (p.mainChainLen - 4)).flatMap fun i =>
        (List.range' (i + 3) (p.mainChainLen - i - 2)).flatMap fun j =>
          contactEntriesAt p.hasSideChain (p.mainChainLen - 1) i j,
      ((List.range' 1 (p.mainChainLen - 4)).map fun i =>
        ((List.range' (i + 3) (p.mainChainLen - i - 2)).map fun j =>
          contactCountAt p.hasSideChain i j).sum).sum).1
      = (List.range' 1 (p.mainChainLen - 4)).flatMap fun i =>
          (List.range' (i + 3) (p.mainChainLen - i - 2)).flatMap fun j =>
            contactEntriesAt p.hasSideChain (p.mainChainLen - 1) i j from rfl]
  rw [List.map_flatMap]
  simp only [List.map_flatMap, List.mem_flatMap, List.mem_range'_1]
  constructor
  · rintro ⟨i1, hi, j1, hj, hk⟩
    rw [keys_contactEntriesAt] at hk
    rcases hk with ⟨hkeq, h1, h2⟩ | ⟨hkeq, h1, h2, h3⟩ | ⟨hkeq, h1, h2, h3⟩ | ⟨hkeq, h1, h2, h3⟩
    · obtain ⟨rfl, rfl, rfl, rfl⟩ : i = i1 ∧ pf = 0 ∧ j = j1 ∧ sf = 0 := by
        simpa [Prod.ext_iff] using hkeq
      exact ⟨by omega, by omega, by omega, by omega, Or.inl ⟨rfl, rfl, h1, h2⟩⟩
    · obtain ⟨rfl, rfl, rfl, rfl⟩ : i = i1 ∧ pf = 1 ∧ j = j1 ∧ sf = 1 := by
        simpa [Prod.ext_iff] using hkeq
      exact ⟨by omega, by omega, by omega, by omega, Or.inr (Or.inl ⟨rfl, rfl, h1, h2, h3⟩)⟩
    · obtain ⟨rfl, rfl, rfl, rfl⟩ : i = i1 ∧ pf = 0 ∧ j = j1 ∧ sf = 1 := by
        simpa [Prod.ext_iff] using hkeq
      exact ⟨by omega, by omega, by omega, by omega,
        Or.inr (Or.inr (Or.inl ⟨rfl, rfl, h1, h2, h3⟩))⟩
    · obtain ⟨rfl, rfl, rfl, rfl⟩ : i = i1 ∧ pf = 1 ∧ j = j1 ∧ sf = 0 := by
        simpa [Prod.ext_iff] using hkeq
      exact ⟨by omega, by omega, by omega, by omega,
        Or.inr (Or.inr (Or.inr ⟨rfl, rfl, h1, h2, h3⟩))⟩
  · rintro ⟨hi1, hi2, hj1, hj2, hcase⟩
    refine ⟨i, ⟨by omega, by omega⟩, j, ⟨by omega, by omega⟩, ?_⟩
    rw [keys_contactEntriesAt]
    rcases hcase with ⟨hpf, hsf, h1, h2⟩ | ⟨hpf, hsf, h1, h2, h3⟩ |
      ⟨hpf, hsf, h1, h2, h3⟩ | ⟨hpf, hsf, h1, h2, h3⟩
    · subst hpf; subst hsf
      exact Or.inl ⟨rfl, h1, h2⟩
    · subst hpf; subst hsf
      exact Or.inr (Or.inl ⟨rfl, h1, h2, h3⟩)
    · subst hpf; subst hsf
      exact Or.inr (Or.inr (Or.inl ⟨rfl, h1, h2, h3⟩))
    · subst hpf; subst hsf
      exact Or.inr (Or.inr (Or.inr ⟨rfl, h1, h2, h3⟩))

/-- The alternating-sign sum of claim C4, stated from the claim's words: the
sum over k from i to j-1 of (-1)^k times the axis-a turn indicator of
main-chain bead k (terms joined by operator addition, starting from the empty
sum that models the source's int 0 accumulator). -/
def altSignedSum (p : Peptide) (a i j : ℕ) : ZOp :=
  ((List.range' i (j - i)).map fun k => ZOp.smul ((-1) ^ k) (p.mainIndicator a k)).foldl
    ZOp.add ⟨p.turnWidth + p.turnWidth, []⟩

theorem deltaAcc_eq_altSignedSum (p : Peptide) (a i j : ℕ) :
    deltaAcc p a i j = altSignedSum p a i j := by
  unfold deltaAcc altSignedSum
  rw [List.foldl_map]

/-- C4 (amended): for every Peptide, every axis and every main-chain pair
(i, j) with 1 <= i < j <= main_chain_len, the stored main-chain displacement
delta_na[i][0][j][0] equals the alternating-sign sum over k in [i, j) of
(-1)^k times the axis-a indicator of bead k, passed through the _fix_qubits
substitution and reduced once after the k-accumulation completes (one
_fix_qubits + reduce per (i, j, axis) — not a plain reduced sum, and not a
reduce after every k-step). -/
theorem main_chain_displacement (p : Peptide) (a i j : ℕ)
    (h1 : 1 ≤ i) (h2 : i < j) (h3 : j ≤ p.mainChainLen) :
    _calc_distances_main_chain p a i j
      = some (ZOp.reduce (_fix_qubits (altSignedSum p a i j))) := by
  unfold _calc_distances_main_chain
  rw [if_pos ⟨h1, h2, h3⟩, deltaAcc_eq_altSignedSum]

/-- Witness for main_chain_displacement at a concrete input. -/
theorem main_chain_displacement_witness :
    1 ≤ 1 ∧ 1 < 2 ∧ 2 ≤ (Peptide.build 2 [0, 0]).mainChainLen ∧
      _calc_distances_main_chain (Peptide.build 2 [0, 0]) 0 1 2
        = some (ZOp.reduce (_fix_qubits (altSignedSum (Peptide.build 2 [0, 0]) 0 1 2))) :=
  ⟨by decide, by decide, by decide,
   main_chain_displacement (Peptide.build 2 [0, 0]) 0 1 2 (by decide) (by decide) (by decide)⟩

/-- C4 counterexample: the claim as stated — the stored displacement equals
the reduced alternating-sign sum itself — is false: already on the 2-bead
peptide the source applies _fix_qubits before reducing, and the fixed qubits
{0,1,2,3} make delta_n0[1][0][2][0] collapse to the zero operator while the
plain reduced alternating-sign sum is a four-term operator. -/
theorem main_chain_displacement_claim_false :
    ¬ (_calc_distances_main_chain (Peptide.build 2 [0, 0]) 0 1 2
        = some (ZOp.reduce (altSignedSum (Peptide.build 2 [0, 0]) 0 1 2))) := by decide

theorem deltaTable_isSome_iff (p : Peptide) (a i pf j sf : ℕ) :
    (deltaTable p a i pf j sf).isSome = true ↔
      (1 ≤ i ∧ i < j ∧ j ≤ p.mainChainLen ∧
        ((pf = 0 ∧ sf = 0) ∨
         (pf = 0 ∧ sf = 1 ∧ p.hasSideChain j = true) ∨
         (pf = 1 ∧ sf = 0 ∧ p.hasSideChain i = true) ∨
         (pf = 1 ∧ sf = 1 ∧ p.hasSideChain i = true ∧ p.hasSideChain j = true))) := by
  unfold deltaTable _calc_distances_main_chain
  by_cases hr : 1 ≤ i ∧ i < j ∧ j ≤ p.mainChainLen
  · by_cases h00 : pf = 0 ∧ sf = 0
    · simp [h00, hr]
      try tauto
    · by_cases h01 : pf = 0 ∧ sf = 1
      · by_cases hscj : p.hasSideChain j = true <;> simp [h00, h01, hscj, hr] <;> try tauto
      · by_cases h10 : pf = 1 ∧ sf = 0
        · by_cases hsci : p.hasSideChain i = true <;> simp [h00, h01, h10, hsci, hr] <;>
            try tauto
        · by_cases h11 : pf = 1 ∧ sf = 1
          · by_cases hsc : p.hasSideChain i = true ∧ p.hasSideChain j = true <;>
              simp [h00, h01, h10, h11, hsc, hr] <;> try tauto
          · simp [h00, h01, h10, h11]
            try tauto
  · by_cases h00 : pf = 0 ∧ sf = 0
    · simp [h00, hr]
      try tauto
    · by_cases h01 : pf = 0 ∧ sf = 1
      · by_cases hscj : p.hasSideChain j = true <;> simp [h00, h01, hscj, hr] <;> try tauto
      · by_cases h10 : pf = 1 ∧ sf = 0
        · by_cases hsci : p.hasSideChain i = true <;> simp [h00, h01, h10, hsci, hr] <;>
            try tauto
        · by_cases h11 : pf = 1 ∧ sf = 1
          · by_cases hsc : p.hasSideChain i = true ∧ p.hasSideChain j = true <;>
              simp [h00, h01, h10, h11, hsc, hr] <;> try tauto
          · simp [h00, h01, h10, h11]
            try tauto

/-- C5: for every Peptide, the total distance table contains no entry with
the first main-chain bead as lower partner and side flag 1 (keys (1,1,j,s)),
no entry with the last main-chain bead as upper partner and side flag 1
(keys (i,p,main_chain_len,1)), and every combination whose side-chain
displacement data is missing is skipped — its key is absent from the table,
neither stored as zero nor surfaced as an error. -/
theorem xdist_exclusions (p : Peptide) :
    (∀ j sf, _calc_total_distances p 1 1 j sf = none)
    ∧ (∀ i pf, _calc_total_distances p i pf p.mainChainLen 1 = none)
    ∧ (∀ i pf j sf a, deltaTable p a i pf j sf = none →
        _calc_total_distances p i pf j sf = none) := by
  refine ⟨?_, ?_, ?_⟩
  · intro j sf
    unfold _calc_total_distances
    by_cases h : 1 ≤ 1 ∧ 1 < j ∧ j ≤ p.mainChainLen
    · rw [if_pos h, if_pos (Or.inl ⟨rfl, rfl⟩)]
    · rw [if_neg h]
  · intro i pf
    unfold _calc_total_distances
    by_cases h : 1 ≤ i ∧ i < p.mainChainLen ∧ p.mainChainLen ≤ p.mainChainLen
    · rw [if_pos h, if_pos (Or.inr ⟨rfl, rfl⟩)]
    · rw [if_neg h]
  · intro i pf j sf a hnone
    have hall : ∀ b, deltaTable p b i pf j sf = none := by
      intro b
      have h1 := deltaTable_isSome_iff p a i pf j sf
      have h2 := deltaTable_isSome_iff p b i pf j sf
      rw [hnone] at h1
      simp only [Option.isSome_none, Bool.false_eq_true, false_iff] at h1
      cases hb : deltaTable p b i pf j sf with
      | none => rfl
      | some v =>
        rw [hb] at h2
        simp only [Option.isSome_some, true_iff] at h2
        exact absurd h2 h1
    unfold _calc_total_distances
    by_cases h : 1 ≤ i ∧ i < j ∧ j ≤ p.mainChainLen
    · rw [if_pos h]
      by_cases hex : (i = 1 ∧ pf = 1) ∨ (j = p.mainChainLen ∧ sf = 1)
      · rw [if_pos hex]
      · rw [if_neg hex, hall 0, hall 1, hall 2, hall 3]
    · rw [if_neg h]

/-- Witness for xdist_exclusions on the 6-bead peptide with side chains at
positions 3, 4 and 5: the first-bead side slot (1,1,4,0), the last-bead side
slot (2,0,6,1), and the combination (2,1,5,0) whose lower bead 2 carries no
side chain (its delta key is absent) are all absent from x_dist. -/
theorem xdist_exclusions_witness :
    _calc_total_distances (Peptide.build 6 [0, 0, 1, 1, 1, 0]) 1 1 4 0 = none
    ∧ _calc_total_distances (Peptide.build 6 [0, 0, 1, 1, 1, 0]) 2 0 6 1 = none
    ∧ deltaTable (Peptide.build 6 [0, 0, 1, 1, 1, 0]) 0 2 1 5 0 = none
    ∧ _calc_total_distances (Peptide.build 6 [0, 0, 1, 1, 1, 0]) 2 1 5 0 = none :=
  ⟨(xdist_exclusions (Peptide.build 6 [0, 0, 1, 1, 1, 0])).1 4 0,
   (xdist_exclusions (Peptide.build 6 [0, 0, 1, 1, 1, 0])).2.1 2 0,
   by decide,
   (xdist_exclusions (Peptide.build 6 [0, 0, 1, 1, 1, 0])).2.2 2 1 5 0 0 (by decide)⟩

/-- C3: for every (i,p,j,s) combination present in the distance table,
_first_neighbor with locality penalty lambda_1 returns the reduced form of
lambda_0 * (x_dist[i][p][j][s] - Identity) with lambda_0 =
7*(j-i+1)*lambda_1, and the pairwise contact energy pair_energies[i,p,j,s]
does not contribute (the result is the same for any energy matrix); on the
6-bead chain (side chains at 3,4,5) with contact (1,0,4,0) and lambda_1 = 2
the result is 168*Identity_20 + 56*(Z at qubit 4, i.e. tensor slot 15 of the
20-qubit register) — x_dist[1][0][4][0] = 4*I + Z, so the energies of the
literature table cannot appear in it (first conjunct), and the concrete
operator is stated in canonical reduced form (mask 2^4 = 16). -/
theorem first_neighbor_formula :
    (∀ (i pf j sf : ℕ) (lambda_1 : ℚ) (pe pe2 : ℕ → ℕ → ℕ → ℕ → ℚ)
        (x_dist : ℕ → ℕ → ℕ → ℕ → Option ZOp) (x : ZOp),
        x_dist i pf j sf = some x →
          _first_neighbor i pf j sf lambda_1 pe x_dist
              = some (ZOp.reduce (ZOp.smul (7 * ((j : ℚ) - (i : ℚ) + 1) * lambda_1)
                  (ZOp.sub x (_build_full_identity x.numQubits))))
            ∧ _first_neighbor i pf j sf lambda_1 pe x_dist
                = _first_neighbor i pf j sf lambda_1 pe2 x_dist)
    ∧ _first_neighbor 1 0 4 0 2 (fun _ _ _ _ => 0)
          (_calc_total_distances (Peptide.build 6 [0, 0, 1, 1, 1, 0]))
        = some ⟨20, [(168, 0), (56, 16)]⟩ := by
  constructor
  · intro i pf j sf lambda_1 pe pe2 x_dist x hx
    unfold _first_neighbor
    rw [hx]
    exact ⟨rfl, rfl⟩
  · decide

/-- Witness for the general conjunct of first_neighbor_formula at the
concrete table of the 6-bead peptide. -/
theorem first_neighbor_formula_witness :
    _calc_total_distances (Peptide.build 6 [0, 0, 1, 1, 1, 0]) 1 0 4 0
        = some ⟨20, [(4, 0), (1, 16)]⟩
    ∧ _first_neighbor 1 0 4 0 2 (fun _ _ _ _ => 0)
          (_calc_total_distances (Peptide.build 6 [0, 0, 1, 1, 1, 0]))
        = some (ZOp.reduce (ZOp.smul (7 * ((4 : ℚ) - (1 : ℚ) + 1) * 2)
            (ZOp.sub (⟨20, [(4, 0), (1, 16)]⟩ : ZOp) (_build_full_identity 20)))) :=
  ⟨by decide,
   (first_neighbor_formula.1 1 0 4 0 2 (fun _ _ _ _ => 0) (fun _ _ _ _ => 0)
      (_calc_total_distances (Peptide.build 6 [0, 0, 1, 1, 1, 0]))
      ⟨20, [(4, 0), (1, 16)]⟩ (by decide)).1⟩

theorem coeffFn_add (x y : ZOp) (m : ℕ) :
    ZOp.coeffFn (ZOp.add x y) m = ZOp.coeffFn x m + ZOp.coeffFn y m :=
  ZOp.coeffOf_append x.terms y.terms m

theorem coeffFn_tensor_idLeft (k : ℕ) (x : ZOp) (m : ℕ) :
    ZOp.coeffFn (ZOp.tensor (_build_full_identity k) x) m = ZOp.coeffFn x m := by
  unfold ZOp.tensor _build_full_identity ZOp.coeffFn
  simp only [List.flatMap_cons, List.flatMap_nil, List.append_nil, one_mul, zero_mul, zero_add]
  rw [show (x.terms.map fun u => (u.1, u.2)) = x.terms from by simp]

theorem mainBead_resolution (n a b m : ℕ) :
    ZOp.coeffFn
        (ZOp.add (ZOp.add (ZOp.add
          (MainBead._build_turn_indicator_fun_0 (_build_full_identity n)
            (_build_turn_qubit n a) (_build_turn_qubit n b))
          (MainBead._build_turn_indicator_fun_1 (_build_full_identity n)
            (_build_turn_qubit n a) (_build_turn_qubit n b)))
          (MainBead._build_turn_indicator_fun_2 (_build_full_identity n)
            (_build_turn_qubit n a) (_build_turn_qubit n b)))
          (MainBead._build_turn_indicator_fun_3 (_build_full_identity n)
            (_build_turn_qubit n a) (_build_turn_qubit n b)))
        m
      = ZOp.coeffFn (_build_full_identity (n + n)) m := by
  rw [coeffFn_add, coeffFn_add, coeffFn_add]
  unfold MainBead._build_turn_indicator_fun_0 MainBead._build_turn_indicator_fun_1
    MainBead._build_turn_indicator_fun_2 MainBead._build_turn_indicator_fun_3
  rw [ZOp.coeffFn_reduce, ZOp.coeffFn_reduce, ZOp.coeffFn_reduce, ZOp.coeffFn_reduce]
  rw [coeffFn_tensor_idLeft, coeffFn_tensor_idLeft, coeffFn_tensor_idLeft,
    coeffFn_tensor_idLeft]
  simp only [ZOp.mul, ZOp.sub, ZOp.add, ZOp.neg, ZOp.smul, _build_turn_qubit,
    _build_full_identity, _build_pauli_z_op, ZOp.coeffFn, List.flatMap_cons,
    List.flatMap_nil, List.map_cons, List.map_nil, List.sum_cons, List.sum_nil,
    List.append_nil, List.cons_append, List.nil_append, Nat.zero_xor, Nat.xor_zero,
    Nat.xor_self, ZOp.coeffOf_cons, ZOp.coeffOf_nil, one_mul, mul_one, zero_mul,
    zero_add, add_zero, Nat.xor_comm]
  rcases eq_or_ne a b with rfl | hne
  · have h1 : (2:ℕ)^a ≠ 0 := (Nat.pow_pos (by norm_num)).ne'
    simp only [Nat.xor_self]
    split_ifs <;> try (exfalso; omega)
    all_goals norm_num
  · have h1 : (2:ℕ)^a ≠ 0 := (Nat.pow_pos (by norm_num)).ne'
    have h2 : (2:ℕ)^b ≠ 0 := (Nat.pow_pos (by norm_num)).ne'
    have h3 : (2:ℕ)^a ≠ 2^b := fun h => hne (Nat.pow_right_injective (by norm_num) h)
    have h4 : (2:ℕ)^a ^^^ 2^b ≠ 0 := fun h => h3 (Nat.xor_eq_zero.mp h)
    have h5 : (2:ℕ)^a ^^^ 2^b ≠ 2^a := by
      intro h
      apply h2
      have h7 := congrArg (fun x => 2^a ^^^ x) h
      simpa [← Nat.xor_assoc, Nat.xor_self, Nat.zero_xor] using h7
    have h6 : (2:ℕ)^a ^^^ 2^b ≠ 2^b := by
      intro h
      apply h1
      have h7 := congrArg (fun x => x ^^^ 2^b) h
      simpa [Nat.xor_assoc, Nat.xor_self, Nat.xor_zero] using h7
    split_ifs <;> try (exfalso; omega)
    all_goals norm_num

theorem sideBead_resolution (n a b m : ℕ) :
    ZOp.coeffFn
        (ZOp.add (ZOp.add (ZOp.add
          (SideBead._build_turn_indicator_fun_0 (_build_full_identity n)
            (_build_turn_qubit n a) (_build_turn_qubit n b))
          (SideBead._build_turn_indicator_fun_1 (_build_full_identity n)
            (_build_turn_qubit n a) (_build_turn_qubit n b)))
          (SideBead._build_turn_indicator_fun_2 (_build_full_identity n)
            (_build_turn_qubit n a) (_build_turn_qubit n b)))
          (SideBead._build_turn_indicator_fun_3 (_build_full_identity n)
            (_build_turn_qubit n a) (_build_turn_qubit n b)))
        m
      = ZOp.coeffFn (_build_full_identity (n + n)) m := by
  rw [coeffFn_add, coeffFn_add, coeffFn_add]
  unfold SideBead._build_turn_indicator_fun_0 SideBead._build_turn_indicator_fun_1
    SideBead._build_turn_indicator_fun_2 SideBead._build_turn_indicator_fun_3
  rw [ZOp.coeffFn_reduce, ZOp.coeffFn_reduce, ZOp.coeffFn_reduce, ZOp.coeffFn_reduce]
  simp only [ZOp.tensor, ZOp.mul, ZOp.sub, ZOp.add, ZOp.neg, ZOp.smul, _build_turn_qubit,
    _build_full_identity, _build_pauli_z_op, ZOp.coeffFn, List.flatMap_cons,
    List.flatMap_nil, List.map_cons, List.map_nil, List.sum_cons, List.sum_nil,
    List.append_nil, List.cons_append, List.nil_append, Nat.zero_xor, Nat.xor_zero,
    Nat.xor_self, ZOp.coeffOf_cons, ZOp.coeffOf_nil, one_mul, mul_one, zero_mul,
    zero_add, add_zero, Nat.xor_comm]
  rcases eq_or_ne a b with rfl | hne
  · have hn : (0:ℕ) < 2^n := Nat.pow_pos (by norm_num)
    have g1 : (2:ℕ)^a * 2^n ≠ 0 :=
      Nat.mul_ne_zero ((Nat.pow_pos (by norm_num)).ne') hn.ne'
    simp only [Nat.xor_self, zero_mul]
    split_ifs <;> try (exfalso; omega)
    all_goals norm_num
  · have hn : (0:ℕ) < 2^n := Nat.pow_pos (by norm_num)
    have h1 : (2:ℕ)^a ≠ 0 := (Nat.pow_pos (by norm_num)).ne'
    have h2 : (2:ℕ)^b ≠ 0 := (Nat.pow_pos (by norm_num)).ne'
    have h3 : (2:ℕ)^a ≠ 2^b := fun h => hne (Nat.pow_right_injective (by norm_num) h)
    have h4 : (2:ℕ)^a ^^^ 2^b ≠ 0 := fun h => h3 (Nat.xor_eq_zero.mp h)
    have h5 : (2:ℕ)^a ^^^ 2^b ≠ 2^a := by
      intro h
      apply h2
      have h7 := congrArg (fun x => 2^a ^^^ x) h
      simpa [← Nat.xor_assoc, Nat.xor_self, Nat.zero_xor] using h7
    have h6 : (2:ℕ)^a ^^^ 2^b ≠ 2^b := by
      intro h
      apply h1
      have h7 := congrArg (fun x => x ^^^ 2^b) h
      simpa [Nat.xor_assoc, Nat.xor_self, Nat.xor_zero] using h7
    have g1 : (2:ℕ)^a * 2^n ≠ 0 := Nat.mul_ne_zero h1 hn.ne'
    have g2 : (2:ℕ)^b * 2^n ≠ 0 := Nat.mul_ne_zero h2 hn.ne'
    have g3 : (2:ℕ)^a * 2^n ≠ 2^b * 2^n :=
      fun h => h3 (Nat.eq_of_mul_eq_mul_right hn h)
    have g4 : ((2:ℕ)^a ^^^ 2^b) * 2^n ≠ 0 := Nat.mul_ne_zero h4 hn.ne'
    have g5 : ((2:ℕ)^a ^^^ 2^b) * 2^n ≠ 2^a * 2^n :=
      fun h => h5 (Nat.eq_of_mul_eq_mul_right hn h)
    have g6 : ((2:ℕ)^a ^^^ 2^b) * 2^n ≠ 2^b * 2^n :=
      fun h => h6 (Nat.eq_of_mul_eq_mul_right hn h)
    split_ifs <;> try (exfalso; omega)
    all_goals norm_num

/-- C6: for every bead that has a residue type — main-chain or side-chain —
the four turn-indicator operators the bead computes from its own turn-qubit
pair (the two-level selectors _build_turn_qubit n a and _build_turn_qubit n b
allocated at Peptide construction, for any register width n and any qubit
indices a, b) sum algebraically to the identity operator on the full
(n+n)-qubit register: a resolution of identity, for the main-bead tensor
convention (identity factor on the left) and the side-bead one (identity
factor on the right) alike. -/
theorem indicators_resolution_of_identity (n a b : ℕ) :
    ZOp.aeq
        (ZOp.add (ZOp.add (ZOp.add
          (MainBead._build_turn_indicator_fun_0 (_build_full_identity n)
            (_build_turn_qubit n a) (_build_turn_qubit n b))
          (MainBead._build_turn_indicator_fun_1 (_build_full_identity n)
            (_build_turn_qubit n a) (_build_turn_qubit n b)))
          (MainBead._build_turn_indicator_fun_2 (_build_full_identity n)
            (_build_turn_qubit n a) (_build_turn_qubit n b)))
          (MainBead._build_turn_indicator_fun_3 (_build_full_identity n)
            (_build_turn_qubit n a) (_build_turn_qubit n b)))
        (_build_full_identity (n + n))
    ∧ ZOp.aeq
        (ZOp.add (ZOp.add (ZOp.add
          (SideBead._build_turn_indicator_fun_0 (_build_full_identity n)
            (_build_turn_qubit n a) (_build_turn_qubit n b))
          (SideBead._build_turn_indicator_fun_1 (_build_full_identity n)
            (_build_turn_qubit n a) (_build_turn_qubit n b)))
          (SideBead._build_turn_indicator_fun_2 (_build_full_identity n)
            (_build_turn_qubit n a) (_build_turn_qubit n b)))
          (SideBead._build_turn_indicator_fun_3 (_build_full_identity n)
            (_build_turn_qubit n a) (_build_turn_qubit n b)))
        (_build_full_identity (n + n)) :=
  ⟨⟨rfl, mainBead_resolution n a b⟩, ⟨rfl, sideBead_resolution n a b⟩⟩

theorem find_remove_aux (ops : List (ℚ × List PauliFactor)) (len : ℕ)
    (K : List ℕ)
    (hK : K = (List.range len).filter fun s =>
        decide (len - 1 - s ∉ (List.range len).filter fun q2 =>
          ops.all fun t => decide (t.2.getD (len - 1 - q2) PauliFactor.id = PauliFactor.id)))
    (q : ℕ) (hq : q < K.length) :
    ¬((ops.map fun t => (t.1, K.map fun s => t.2.getD s PauliFactor.id)).all
        fun t => decide (t.2.getD (K.length - 1 - q) PauliFactor.id = PauliFactor.id)) = true := by
  have hs1 : K.length - 1 - q < K.length := by omega
  have hsmem : K.get ⟨K.length - 1 - q, hs1⟩ ∈ K := List.get_mem K _ hs1
  generalize hxeq : K.get ⟨K.length - 1 - q, hs1⟩ = x at hsmem
  rw [hK] at hsmem
  obtain ⟨hrange, hdec⟩ := List.mem_filter.mp hsmem
  rw [List.mem_range] at hrange
  have hnotU : len - 1 - x ∉
      (List.range len).filter fun q2 =>
        ops.all fun t => decide (t.2.getD (len - 1 - q2) PauliFactor.id = PauliFactor.id) :=
    of_decide_eq_true hdec
  have hnall : ¬(ops.all fun t =>
      decide (t.2.getD x PauliFactor.id = PauliFactor.id)) = true := by
    intro hall
    apply hnotU
    rw [List.mem_filter]
    refine ⟨by rw [List.mem_range]; omega, ?_⟩
    rw [show len - 1 - (len - 1 - x) = x from by omega]
    exact hall
  rw [List.all_eq_true] at hnall
  push_neg at hnall
  obtain ⟨t, ht, hne⟩ := hnall
  intro hall
  have hth := List.all_eq_true.mp hall (t.1, K.map fun s => t.2.getD s PauliFactor.id)
    (List.mem_map_of_mem _ ht)
  apply hne
  rw [show (t.1, K.map fun s => t.2.getD s PauliFactor.id).2
        = K.map (fun s => t.2.getD s PauliFactor.id) from rfl] at hth
  rw [List.getD_eq_getElem _ _ (by rw [List.length_map]; omega)] at hth
  rw [List.getElem_map] at hth
  rw [List.get_eq_getElem] at hxeq
  rw [hxeq] at hth
  exact hth

/-- C9: for every weighted Pauli-sum operator (a nonempty-or-empty list of
terms of a common width n), applying _find_unused_qubits to the result of
_remove_unused_qubits yields the empty set: no qubit position of the reduced
operator carries the Identity factor in every term, so no further reduction
is possible. -/
theorem reducer_roundtrip (op : List (ℚ × List PauliFactor)) (n : ℕ)
    (hw : ∀ t ∈ op, t.2.length = n) :
    _find_unused_qubits (_remove_unused_qubits op) = [] := by
  cases op with
  | nil => rfl
  | cons t0 rest =>
    unfold _remove_unused_qubits
    unfold _find_unused_qubits
    simp only [List.map_cons, List.length_map]
    rw [List.filter_eq_nil_iff]
    intro q hq
    rw [List.mem_range] at hq
    exact find_remove_aux (t0 :: rest) t0.2.length _ rfl q hq

/-- Witness for reducer_roundtrip at the spec section-8 operator
(I^I^I) + (Z^I^Z). -/
theorem reducer_roundtrip_witness :
    (∀ t ∈ [((1 : ℚ), [PauliFactor.id, PauliFactor.id, PauliFactor.id]),
            ((1 : ℚ), [PauliFactor.z, PauliFactor.id, PauliFactor.z])], t.2.length = 3)
    ∧ _find_unused_qubits (_remove_unused_qubits
        [((1 : ℚ), [PauliFactor.id, PauliFactor.id, PauliFactor.id]),
         ((1 : ℚ), [PauliFactor.z, PauliFactor.id, PauliFactor.z])]) = [] :=
  ⟨by decide,
   reducer_roundtrip
     [((1 : ℚ), [PauliFactor.id, PauliFactor.id, PauliFactor.id]),
      ((1 : ℚ), [PauliFactor.z, PauliFactor.id, PauliFactor.z])] 3 (by decide)⟩

/-- C7: the side-chain construction behavior of the source as written.  A
requested side-chain length above 1 raises the configuration error (that half
of the claim holds), and length 0 yields no side chain; but a requested
length of exactly 1 does not produce a side bead: side_chain.py calls
SideBead with 2 positional arguments where side_bead.py's constructor
requires 4 (main_index, side_index, residue_type, turn_qubits), so
construction raises a TypeError instead of succeeding — the code contradicts
both the spec and its own test test_bead_side. -/
theorem side_chain_build_behavior :
    (∀ len residues, 1 < len →
      SideChain._build_side_chain len residues
        = Except.error (PyErr.exception
            "Only side chains of length 1 supported, a longer length was given."))
    ∧ SideChain._build_side_chain 0 [] = Except.ok none
    ∧ SideChain._build_side_chain 1 [some 'A']
        = Except.error (PyErr.typeError
            "SideBead.__init__ missing 2 required positional arguments") := by
  refine ⟨?_, rfl, rfl⟩
  intro len residues hlen
  unfold SideChain._build_side_chain
  rw [if_pos hlen]

/-- Witness for side_chain_build_behavior at side_chain_len = 2. -/
theorem side_chain_build_behavior_witness :
    1 < 2 ∧
      SideChain._build_side_chain 2 [some 'A']
        = Except.error (PyErr.exception
            "Only side chains of length 1 supported, a longer length was given.") :=
  ⟨by decide, side_chain_build_behavior.1 2 [some 'A'] (by decide)⟩

theorem validate_residue_error (sequence : List Char)
    (hex : ∃ c ∈ sequence, c ∉ validResidues) :
    _validate_residue sequence
      = Except.error (PyErr.valueError "residue sequence contains an unrecognized code") := by
  unfold _validate_residue
  rw [if_neg ?hcond]
  case hcond =>
    intro hall
    obtain ⟨c, hc, hnv⟩ := hex
    have hcontains := List.all_eq_true.mp hall c hc
    exact hnv (by simpa using hcontains)

/-- C8 counterexample: the random provider performs no validation of the
residue sequence: on ["B"], which contains an unrecognized residue code (B is
not one of the twenty amino-acid letters), RandomInteraction.calc_energy_matrix
succeeds — returning the random matrix — instead of failing with a domain
error, so the claim that each of the three providers validates the sequence
is false. -/
theorem random_interaction_no_validation :
    ('B' ∉ validResidues)
    ∧ RandomInteraction.calc_energy_matrix 1 ['B'] (fun _ _ _ _ => 0)
        = Except.ok fun i pf j sf => -1 - 4 * (fun _ _ _ _ => (0 : ℚ)) i pf j sf :=
  ⟨by decide, rfl⟩

/-- C8 (amended): the literature-table and mixed providers validate the
residue sequence before indexing the energy table and fail with a domain
error for any sequence containing an unrecognized single-letter code; the
random provider performs no validation — its result is the same for every
sequence argument, which it ignores entirely. -/
theorem interaction_validation :
    (∀ (mj : ℕ → ℕ → ℚ) (list_aa : List Char)
        (add_e : Option (List ((ℕ × ℕ) × (ℕ × ℕ) × ℚ))) (num_beads : ℕ)
        (sequence : List Char), (∃ c ∈ sequence, c ∉ validResidues) →
      MixedInteraction.calc_energy_matrix mj list_aa add_e num_beads sequence
        = Except.error (PyErr.valueError "residue sequence contains an unrecognized code"))
    ∧ (∀ (mj : ℕ → ℕ → ℚ) (list_aa : List Char) (num_beads : ℕ)
        (sequence : List Char), (∃ c ∈ sequence, c ∉ validResidues) →
      MiyazawaJerniganInteraction.calc_energy_matrix mj list_aa num_beads sequence
        = Except.error (PyErr.valueError "residue sequence contains an unrecognized code"))
    ∧ (∀ (num_beads : ℕ) (seq1 seq2 : List Char) (rand : ℕ → ℕ → ℕ → ℕ → ℚ),
      RandomInteraction.calc_energy_matrix num_beads seq1 rand
        = RandomInteraction.calc_energy_matrix num_beads seq2 rand) := by
  refine ⟨?_, ?_, fun _ _ _ _ => rfl⟩
  · intro mj list_aa add_e num_beads sequence hex
    unfold MixedInteraction.calc_energy_matrix
    rw [validate_residue_error sequence hex]
  · intro mj list_aa num_beads sequence hex
    unfold MiyazawaJerniganInteraction.calc_energy_matrix
    rw [validate_residue_error sequence hex]

/-- Witness for interaction_validation at the sequence ["B"]. -/
theorem interaction_validation_witness :
    (∃ c ∈ ['B'], c ∉ validResidues)
    ∧ MixedInteraction.calc_energy_matrix (fun _ _ => 0) [] none 1 ['B']
        = Except.error (PyErr.valueError "residue sequence contains an unrecognized code")
    ∧ MiyazawaJerniganInteraction.calc_energy_matrix (fun _ _ => 0) [] 1 ['B']
        = Except.error (PyErr.valueError "residue sequence contains an unrecognized code") :=
  ⟨⟨'B', by decide, by decide⟩,
   interaction_validation.1 (fun _ _ => 0) [] none 1 ['B'] ⟨'B', by decide, by decide⟩,
   interaction_validation.2.1 (fun _ _ => 0) [] 1 ['B'] ⟨'B', by decide, by decide⟩⟩

/-- C10: every entry of the matrix returned by
RandomInteraction.calc_energy_matrix is -1 - 4*u for the corresponding draw
u of np.random.rand; when every draw lies in [0, 1) each entry lies in the
half-open interval (-5, -1]; and the sequence argument is ignored entirely
(the result is identical for any two sequences). -/
theorem random_energy_matrix_range :
    (∀ (num_beads : ℕ) (sequence : List Char) (rand : ℕ → ℕ → ℕ → ℕ → ℚ),
      RandomInteraction.calc_energy_matrix num_beads sequence rand
        = Except.ok fun i pf j sf => -1 - 4 * rand i pf j sf)
    ∧ (∀ (rand : ℕ → ℕ → ℕ → ℕ → ℚ),
        (∀ i pf j sf, 0 ≤ rand i pf j sf ∧ rand i pf j sf < 1) →
        ∀ (num_beads : ℕ) (sequence : List Char) (matrix : ℕ → ℕ → ℕ → ℕ → ℚ),
          RandomInteraction.calc_energy_matrix num_beads sequence rand
              = Except.ok matrix →
          ∀ i pf j sf, (-5 < matrix i pf j sf ∧ matrix i pf j sf ≤ -1)
            ∧ matrix i pf j sf = -1 - 4 * rand i pf j sf)
    ∧ (∀ (num_beads : ℕ) (seq1 seq2 : List Char) (rand : ℕ → ℕ → ℕ → ℕ → ℚ),
      RandomInteraction.calc_energy_matrix num_beads seq1 rand
        = RandomInteraction.calc_energy_matrix num_beads seq2 rand) := by
  refine ⟨fun _ _ _ => rfl, ?_, fun _ _ _ _ => rfl⟩
  intro rand hrand num_beads sequence matrix hok i pf j sf
  have hm : matrix = fun i pf j sf => -1 - 4 * rand i pf j sf := by
    have := hok.symm.trans (rfl :
      RandomInteraction.calc_energy_matrix num_beads sequence rand
        = Except.ok fun i pf j sf => -1 - 4 * rand i pf j sf)
    exact (Except.ok.injEq _ _).mp this
  subst hm
  obtain ⟨h0, h1⟩ := hrand i pf j sf
  dsimp only
  refine ⟨⟨by linarith, by linarith⟩, rfl⟩

/-- A concrete random source (every draw 0) used by the witness below. -/
def rand0 : ℕ → ℕ → ℕ → ℕ → ℚ := fun _ _ _ _ => 0

/-- The matrix the random provider yields from rand0. -/
def matrix0 : ℕ → ℕ → ℕ → ℕ → ℚ := fun i pf j sf => -1 - 4 * rand0 i pf j sf

/-- Witness for random_energy_matrix_range with the constant zero draw. -/
theorem random_energy_matrix_range_witness :
    (∀ (i pf j sf : ℕ), 0 ≤ rand0 i pf j sf ∧ rand0 i pf j sf < 1)
    ∧ ((-5 < matrix0 1 0 2 0 ∧ matrix0 1 0 2 0 ≤ -1)
        ∧ matrix0 1 0 2 0 = -1 - 4 * rand0 1 0 2 0) :=
  ⟨fun _ _ _ _ => by norm_num [rand0],
   random_energy_matrix_range.2.1 rand0
     (fun _ _ _ _ => by norm_num [rand0]) 1 ['A'] matrix0 rfl 1 0 2 0⟩
